import Mathlib

/-!
Verification of the VCIDSpice DC operating-point solver.

The Rust sources (`src/general/circuit.rs`, `src/simulation/role.rs`,
`src/simulation/op.rs`) are shallowly embedded here: `f64` values become
real numbers, vectors become lists, and the in-place iterative loop of
`simulate_op` becomes explicit state passing with an explicit fuel
argument equal to the fixed iteration ceiling.  The initial
`prev_error = f64::INFINITY` is modelled by `Option ℝ`, `none` standing
for infinity (nothing real compares above it, matching IEEE comparison
with `+inf` on the values the loop produces).
-/

namespace VCIDSpice

open scoped Classical

/-- Component variants, from `src/general/circuit.rs`. -/
inductive Component where
  | VoltageDc (anode cathode : ℕ) (v : ℝ)
  | CurrentDc (anode cathode : ℕ) (current : ℝ)
  | Resistor (pin1 pin2 : ℕ) (r : ℝ)
  | Diode (anode cathode : ℕ) (i_s n : ℝ)

/-- The circuit record, from `src/general/circuit.rs`. -/
structure Circuit where
  components : List Component
  nodes_count : ℕ
  ground_node : ℕ

/-- Per-node contribution roles, from `src/simulation/role.rs`. -/
inductive Role where
  | ConstantCharge (current : ℝ)
  | Linear (conductance : ℝ) (neighbor : ℕ)
  | Exponential (i_s n : ℝ) (neighbor anode cathode : ℕ) (flip : ℝ)

/-- `f64::clamp(x, lo, hi)` for `lo ≤ hi` (always `-5 ≤ 5` here). -/
noncomputable def rclamp (x lo hi : ℝ) : ℝ := max lo (min x hi)

/-- `Role::q_vir_impact` from `src/simulation/role.rs`: contribution of a
role to the virtual charge of `target_node`.  List reads are `getD · 0`;
the solver's precondition guarantees indices are in range. -/
noncomputable def q_vir_impact (role : Role) (voltages : List ℝ) (target_node : ℕ) : ℝ :=
  match role with
  | .ConstantCharge current => current
  | .Linear conductance neighbor =>
      conductance * (voltages.getD neighbor 0 - voltages.getD target_node 0)
  | .Exponential i_s n _neighbor anode cathode flip =>
      let v_diff := rclamp (voltages.getD anode 0 - voltages.getD cathode 0) (-5) 5
      flip * i_s * (Real.exp (v_diff / (n * 0.025852)) - 1)

/-- `Role::delta_v_impact` from `src/simulation/role.rs`: contribution of a
role to the voltage update of `target_node`. -/
noncomputable def delta_v_impact (role : Role) (charges : List ℝ) (damper : ℝ) (target_node : ℕ) : ℝ :=
  match role with
  | .ConstantCharge _ => 0
  | .Linear _ neighbor =>
      damper * (charges.getD target_node 0 - charges.getD neighbor 0)
  | .Exponential _ _ neighbor _ _ _ =>
      damper * (charges.getD target_node 0 - charges.getD neighbor 0)

/-- `roles[i].push(r)`: append a role to node `i`'s list.  An out-of-range
node index leaves the table unchanged (the Rust code would panic there;
valid pin indices are a stated precondition). -/
def addRole (roles : List (List Role)) (i : ℕ) (r : Role) : List (List Role) :=
  roles.set i (roles.getD i [] ++ [r])

/-- One arm of the preprocessing `match` in `simulate_op`
(`src/simulation/op.rs`, lines 40–84): lower one component into roles. -/
noncomputable def compileComponent (t_vir : ℝ) (roles : List (List Role)) :
    Component → List (List Role)
  | .VoltageDc _ _ _ => roles
  | .CurrentDc anode cathode current =>
      let scaled_current := current * t_vir
      addRole (addRole roles anode (.ConstantCharge scaled_current))
        cathode (.ConstantCharge (-scaled_current))
  | .Resistor pin1 pin2 r =>
      let conductance := t_vir / r
      addRole (addRole roles pin1 (.Linear conductance pin2))
        pin2 (.Linear conductance pin1)
  | .Diode anode cathode i_s n =>
      addRole (addRole roles anode
          (.Exponential (i_s * t_vir) n cathode anode cathode (-1)))
        cathode (.Exponential (i_s * t_vir) n anode anode cathode 1)

/-- The whole preprocessing pass: fold `compileComponent` over the
component list, starting from `nodes_count` empty role lists. -/
noncomputable def compileRoles (components : List Component) (t_vir : ℝ) (nodes_count : ℕ) :
    List (List Role) :=
  components.foldl (compileComponent t_vir) (List.replicate nodes_count [])

/-- Step 1 of the loop body: `charges[node] = Σ role.q_vir_impact(voltages, node)`
for every `node < nodes_count`. -/
noncomputable def iterCharges (roles : List (List Role)) (nodes_count : ℕ)
    (voltages : List ℝ) : List ℝ :=
  (List.range nodes_count).map fun node =>
    ((roles.getD node []).map fun role => q_vir_impact role voltages node).sum

/-- Step 2 of the loop body: `delta_vs[node] = Σ role.delta_v_impact(charges, damper, node)`,
all from the single charge snapshot of step 1. -/
noncomputable def iterDeltaVs (roles : List (List Role)) (nodes_count : ℕ)
    (charges : List ℝ) (damper : ℝ) : List ℝ :=
  (List.range nodes_count).map fun node =>
    ((roles.getD node []).map fun role => delta_v_impact role charges damper node).sum

/-- Steps 1–2 combined: the per-iteration update vector as a function of the
damper and the current voltages. -/
noncomputable def iterDeltas (roles : List (List Role)) (nodes_count : ℕ)
    (damper : ℝ) (voltages : List ℝ) : List ℝ :=
  iterDeltaVs roles nodes_count (iterCharges roles nodes_count voltages) damper

/-- Step 3 of the loop body: `voltages[node] += delta_vs[node]`, all deltas
computed before any voltage changes (the Rust loop writes into `voltages`
only after `delta_vs` is fully built). -/
noncomputable def iterVoltages (roles : List (List Role)) (nodes_count : ℕ)
    (damper : ℝ) (voltages : List ℝ) : List ℝ :=
  (List.range nodes_count).map fun node =>
    voltages.getD node 0 + (iterDeltas roles nodes_count damper voltages).getD node 0

/-- Step 4: `max_delta_v = delta_vs.iter().map(|dv| dv.abs()).fold(0.0, f64::max)`. -/
noncomputable def maxDeltaV (delta_vs : List ℝ) : ℝ := (delta_vs.map fun dv => |dv|).foldl max 0

/-- `max_delta_v` of the current iteration as a function of the loop state. -/
noncomputable def iterMaxDeltaV (roles : List (List Role)) (nodes_count : ℕ)
    (damper : ℝ) (voltages : List ℝ) : ℝ :=
  maxDeltaV (iterDeltas roles nodes_count damper voltages)

/-- The mutable state of the main loop of `simulate_op`. -/
structure SimState where
  voltages : List ℝ
  damper : ℝ
  prev_voltages : List ℝ
  prev_error : Option ℝ
  iteration : ℕ

/-- `max_delta_v > prev_error` with `none` playing `f64::INFINITY`
(no produced error is `> +inf`). -/
def errGrew (max_delta_v : ℝ) (prev_error : Option ℝ) : Prop :=
  match prev_error with
  | none => False
  | some e => max_delta_v > e

/-- One pass of the main loop (steps 1–5 and the `iteration += 1`):
returns the new state together with this pass's `max_delta_v`. -/
noncomputable def simStep (roles : List (List Role)) (nodes_count : ℕ)
    (st : SimState) : SimState × ℝ :=
  let max_delta_v := iterMaxDeltaV roles nodes_count st.damper st.voltages
  if errGrew max_delta_v st.prev_error then
    ({ voltages := st.prev_voltages,
       damper := st.damper * 0.5,
       prev_voltages := st.prev_voltages,
       prev_error := st.prev_error,
       iteration := st.iteration + 1 }, max_delta_v)
  else
    ({ voltages := iterVoltages roles nodes_count st.damper st.voltages,
       damper := min (st.damper * 1.1) 1,
       prev_voltages := iterVoltages roles nodes_count st.damper st.voltages,
       prev_error := some max_delta_v,
       iteration := st.iteration + 1 }, max_delta_v)

/-- `let max_iterations = 10_000;` — the fixed iteration ceiling. -/
def max_iterations : ℕ := 10000

/-- The main loop, fuel-indexed.  Each pass mirrors the Rust `loop`: run
the body, break with success when `max_delta_v < tolerance`, break with a
non-convergence warning when `iteration >= max_iterations`.  The boolean
records which break fired (`true` = converged).  The fuel only makes the
recursion structural: starting the loop with `fuel = max_iterations -
iteration` the ceiling check always fires first (`simLoop_fuel_irrelevant`
below), so `fuel = 0` is unreachable from the real entry point. -/
noncomputable def simLoop (roles : List (List Role)) (nodes_count : ℕ)
    (tolerance : ℝ) : ℕ → SimState → SimState × Bool
  | 0, st => (st, false)
  | fuel + 1, st =>
      let p := simStep roles nodes_count st
      if p.2 < tolerance then (p.1, true)
      else if max_iterations ≤ p.1.iteration then (p.1, false)
      else simLoop roles nodes_count tolerance fuel p.1

/-- `initial_voltages.unwrap_or_else(|| vec![0.0; circuit.nodes_count])`. -/
noncomputable def initVoltages (nodes_count : ℕ) (initial_voltages : Option (List ℝ)) : List ℝ :=
  initial_voltages.getD (List.replicate nodes_count 0)

/-- The loop state just before the first pass: `damper = 1.0`,
`prev_voltages = voltages.clone()`, `prev_error = f64::INFINITY`,
`iteration = 0`. -/
noncomputable def initState (nodes_count : ℕ) (initial_voltages : Option (List ℝ)) : SimState :=
  let voltages := initVoltages nodes_count initial_voltages
  { voltages := voltages
    damper := 1
    prev_voltages := voltages
    prev_error := none
    iteration := 0 }

/-- `simulate_op` up to (and excluding) the final ground normalization:
compile the roles and run the loop, exposing the final state and the
convergence flag that the Rust code reports through `println!`. -/
noncomputable def simulate_run (circuit : Circuit) (t_vir tolerance : ℝ)
    (initial_voltages : Option (List ℝ)) : SimState × Bool :=
  simLoop (compileRoles circuit.components t_vir circuit.nodes_count)
    circuit.nodes_count tolerance max_iterations
    (initState circuit.nodes_count initial_voltages)

/-- `simulate_op` from `src/simulation/op.rs`: run the loop, then subtract
`voltages[ground_node]` from every entry. -/
noncomputable def simulate_op (circuit : Circuit) (t_vir tolerance : ℝ)
    (initial_voltages : Option (List ℝ)) : List ℝ :=
  let final := (simulate_run circuit t_vir tolerance initial_voltages).1
  let ground_voltage := final.voltages.getD circuit.ground_node 0
  final.voltages.map fun v => v - ground_voltage

/-- The charge contribution of one role, written exactly as the spec words
it: a `ConstantCharge` contributes its stored value unconditionally, a
`Linear` role contributes `conductance × (V[neighbor] − V[node])`, and an
`Exponential` role contributes `flip × i_s × (exp(v_diff / (n × 0.025852)) − 1)`
with `v_diff = clamp(V[anode] − V[cathode], −5.0, 5.0)` clamped before the
exponential. -/
noncomputable def specChargeContrib (voltages : List ℝ) (node : ℕ) : Role → ℝ
  | .ConstantCharge stored => stored
  | .Linear conductance neighbor =>
      conductance * (voltages.getD neighbor 0 - voltages.getD node 0)
  | .Exponential i_s n _neighbor anode cathode flip =>
      flip * i_s *
        (Real.exp
            (rclamp (voltages.getD anode 0 - voltages.getD cathode 0) (-5) 5 /
              (n * 0.025852)) - 1)

/-- The voltage-update contribution of one role, written exactly as the
spec words it: `ConstantCharge` contributes zero, `Linear` and
`Exponential` both contribute `damper × (charge[node] − charge[neighbor])`. -/
noncomputable def specDeltaContrib (charges : List ℝ) (damper : ℝ) (node : ℕ) : Role → ℝ
  | .ConstantCharge _ => 0
  | .Linear _ neighbor =>
      damper * (charges.getD node 0 - charges.getD neighbor 0)
  | .Exponential _ _ neighbor _ _ _ =>
      damper * (charges.getD node 0 - charges.getD neighbor 0)

/-! ### Basic lemmas about the loop body -/

lemma getD_range_map {α : Type} (f : ℕ → α) (d : α) {n i : ℕ} (h : i < n) :
    ((List.range n).map f).getD i d = f i := by
  simp [List.getD_eq_getElem?_getD, List.getElem?_map, List.getElem?_range h]

lemma q_vir_impact_eq_spec (role : Role) (voltages : List ℝ) (node : ℕ) :
    q_vir_impact role voltages node = specChargeContrib voltages node role := by
  cases role <;> simp [q_vir_impact, specChargeContrib]

lemma delta_v_impact_eq_spec (role : Role) (charges : List ℝ) (damper : ℝ) (node : ℕ) :
    delta_v_impact role charges damper node = specDeltaContrib charges damper node role := by
  cases role <;> simp [delta_v_impact, specDeltaContrib]

lemma le_foldl_max (l : List ℝ) : ∀ a : ℝ, a ≤ l.foldl max a := by
  induction l with
  | nil => intro a; simp
  | cons x l ih => intro a; exact le_trans (le_max_left a x) (ih (max a x))

lemma maxDeltaV_nonneg (l : List ℝ) : 0 ≤ maxDeltaV l := le_foldl_max _ 0

lemma simStep_snd (roles : List (List Role)) (nodes_count : ℕ) (st : SimState) :
    (simStep roles nodes_count st).2 =
      iterMaxDeltaV roles nodes_count st.damper st.voltages := by
  rw [simStep]; split <;> rfl

lemma simStep_of_rejected (roles : List (List Role)) (nodes_count : ℕ) (st : SimState)
    (h : errGrew (iterMaxDeltaV roles nodes_count st.damper st.voltages) st.prev_error) :
    simStep roles nodes_count st =
      ({ voltages := st.prev_voltages
         damper := st.damper * 0.5
         prev_voltages := st.prev_voltages
         prev_error := st.prev_error
         iteration := st.iteration + 1 },
        iterMaxDeltaV roles nodes_count st.damper st.voltages) := by
  rw [simStep, if_pos h]

lemma simStep_of_accepted (roles : List (List Role)) (nodes_count : ℕ) (st : SimState)
    (h : ¬ errGrew (iterMaxDeltaV roles nodes_count st.damper st.voltages) st.prev_error) :
    simStep roles nodes_count st =
      ({ voltages := iterVoltages roles nodes_count st.damper st.voltages
         damper := min (st.damper * 1.1) 1
         prev_voltages := iterVoltages roles nodes_count st.damper st.voltages
         prev_error := some (iterMaxDeltaV roles nodes_count st.damper st.voltages)
         iteration := st.iteration + 1 },
        iterMaxDeltaV roles nodes_count st.damper st.voltages) := by
  rw [simStep, if_neg h]

lemma simStep_iteration (roles : List (List Role)) (nodes_count : ℕ) (st : SimState) :
    (simStep roles nodes_count st).1.iteration = st.iteration + 1 := by
  rw [simStep]; split <;> rfl

lemma simLoop_zero (roles : List (List Role)) (nodes_count : ℕ) (tolerance : ℝ)
    (st : SimState) : simLoop roles nodes_count tolerance 0 st = (st, false) := rfl

lemma simLoop_succ (roles : List (List Role)) (nodes_count : ℕ) (tolerance : ℝ)
    (fuel : ℕ) (st : SimState) :
    simLoop roles nodes_count tolerance (fuel + 1) st =
      if (simStep roles nodes_count st).2 < tolerance then
        ((simStep roles nodes_count st).1, true)
      else if max_iterations ≤ (simStep roles nodes_count st).1.iteration then
        ((simStep roles nodes_count st).1, false)
      else simLoop roles nodes_count tolerance fuel (simStep roles nodes_count st).1 := by
  rw [simLoop]

lemma simLoop_iteration_le (roles : List (List Role)) (nodes_count : ℕ) (tolerance : ℝ) :
    ∀ (fuel : ℕ) (st : SimState),
      (simLoop roles nodes_count tolerance fuel st).1.iteration ≤ st.iteration + fuel := by
  intro fuel
  induction fuel with
  | zero => intro st; simp [simLoop_zero]
  | succ fuel ih =>
      intro st
      rw [simLoop_succ]
      split
      · simp [simStep_iteration]
      · split
        · simp [simStep_iteration]
        · exact le_trans (ih _) (by rw [simStep_iteration]; omega)

lemma simLoop_iteration_ge (roles : List (List Role)) (nodes_count : ℕ) (tolerance : ℝ) :
    ∀ (fuel : ℕ) (st : SimState),
      st.iteration ≤ (simLoop roles nodes_count tolerance fuel st).1.iteration := by
  intro fuel
  induction fuel with
  | zero => intro st; simp [simLoop_zero]
  | succ fuel ih =>
      intro st
      rw [simLoop_succ]
      split
      · simp [simStep_iteration]
      · split
        · simp [simStep_iteration]
        · exact le_trans (by rw [simStep_iteration]; omega) (ih _)

lemma simLoop_iteration_ge_one (roles : List (List Role)) (nodes_count : ℕ)
    (tolerance : ℝ) (fuel : ℕ) (st : SimState) (h : 1 ≤ fuel) :
    st.iteration + 1 ≤ (simLoop roles nodes_count tolerance fuel st).1.iteration := by
  obtain ⟨fuel', rfl⟩ : ∃ f, fuel = f + 1 := ⟨fuel - 1, by omega⟩
  rw [simLoop_succ]
  split
  · simp [simStep_iteration]
  · split
    · simp [simStep_iteration]
    · exact le_trans (by rw [← simStep_iteration roles nodes_count st])
        (simLoop_iteration_ge roles nodes_count tolerance fuel' _)

/-! ### Claim theorems -/

/-- C2: in every iteration of `simulate_op`, the charge of each node is the
sum over that node's roles of: the stored value for `ConstantCharge`,
`conductance × (V[neighbor] − V[node])` for `Linear`, and
`flip × i_s × (exp(v_diff / (n × 0.025852)) − 1)` for `Exponential` with
`v_diff = clamp(V[anode] − V[cathode], −5.0, 5.0)` clamped before the
exponential — the charge vector computed by the loop body (`iterCharges`)
agrees with the spec's formula (`specChargeContrib`) at every node. -/
theorem charges_match_spec (roles : List (List Role)) (nodes_count : ℕ)
    (voltages : List ℝ) (node : ℕ) (h : node < nodes_count) :
    (iterCharges roles nodes_count voltages).getD node 0 =
      ((roles.getD node []).map (specChargeContrib voltages node)).sum := by
  rw [iterCharges, getD_range_map _ _ h]
  exact congrArg List.sum
    (List.map_congr_left fun role _ => q_vir_impact_eq_spec role voltages node)

theorem charges_match_spec_witness :
    (0 : ℕ) < 1 ∧
      (iterCharges [[Role.ConstantCharge 1]] 1 []).getD 0 0 =
        (([[Role.ConstantCharge 1]].getD 0 []).map (specChargeContrib [] 0)).sum :=
  ⟨by norm_num, charges_match_spec [[Role.ConstantCharge 1]] 1 [] 0 (by norm_num)⟩

/-- C3: in every iteration of `simulate_op`, the voltage update of each node
is the sum over that node's roles of `damper × (charge[node] − charge[neighbor])`
for `Linear` and `Exponential` roles and zero for `ConstantCharge` roles,
with all charges taken from the single snapshot of step 1 (`iterCharges` of
the pre-update voltages), and every node's voltage is then updated
simultaneously, Jacobi-style: `voltages[node] + delta_v[node]`, with every
delta computed from that same snapshot before any voltage changes. -/
theorem delta_v_jacobi (roles : List (List Role)) (nodes_count : ℕ)
    (damper : ℝ) (voltages : List ℝ) (node : ℕ) (h : node < nodes_count) :
    (iterDeltas roles nodes_count damper voltages).getD node 0 =
      ((roles.getD node []).map
        (specDeltaContrib (iterCharges roles nodes_count voltages) damper node)).sum ∧
    (iterVoltages roles nodes_count damper voltages).getD node 0 =
      voltages.getD node 0 +
        (iterDeltas roles nodes_count damper voltages).getD node 0 := by
  constructor
  · rw [iterDeltas, iterDeltaVs, getD_range_map _ _ h]
    exact congrArg List.sum
      (List.map_congr_left fun role _ => delta_v_impact_eq_spec role _ damper node)
  · rw [iterVoltages, getD_range_map _ _ h]

theorem delta_v_jacobi_witness :
    (0 : ℕ) < 1 ∧
      ((iterDeltas [[Role.ConstantCharge 1]] 1 1 []).getD 0 0 =
        (([[Role.ConstantCharge 1]].getD 0 []).map
          (specDeltaContrib (iterCharges [[Role.ConstantCharge 1]] 1 []) 1 0)).sum ∧
      (iterVoltages [[Role.ConstantCharge 1]] 1 1 []).getD 0 0 =
        ([] : List ℝ).getD 0 0 + (iterDeltas [[Role.ConstantCharge 1]] 1 1 []).getD 0 0) :=
  ⟨by norm_num, delta_v_jacobi [[Role.ConstantCharge 1]] 1 1 [] 0 (by norm_num)⟩

/-- C8: compiling a `Diode` produces exactly two roles, one per terminal,
both carrying the same `(anode, cathode, i_s·t_vir, n)`, with `flip = −1`
on the anode side and `flip = +1` on the cathode side; and for every
voltage vector the anode-side charge contribution is the exact negation of
the cathode-side one. -/
theorem diode_roles_conserve_charge (anode cathode : ℕ) (i_s n t_vir : ℝ)
    (roles : List (List Role)) :
    compileComponent t_vir roles (.Diode anode cathode i_s n) =
      addRole (addRole roles anode
          (.Exponential (i_s * t_vir) n cathode anode cathode (-1)))
        cathode (.Exponential (i_s * t_vir) n anode anode cathode 1) ∧
    ∀ (voltages : List ℝ) (t₁ t₂ : ℕ),
      q_vir_impact (.Exponential (i_s * t_vir) n cathode anode cathode (-1)) voltages t₁ =
        - q_vir_impact (.Exponential (i_s * t_vir) n anode anode cathode 1) voltages t₂ := by
  refine ⟨rfl, fun voltages t₁ t₂ => ?_⟩
  simp only [q_vir_impact]
  ring

/-- C10: every pass of the main loop increments the iteration counter by
exactly one, accepted or rejected alike, and therefore the loop's final
iteration count never exceeds the starting count plus the available number
of passes — with the entry fuel `max_iterations`, the ceiling bounds the
total number of passes. -/
theorem every_pass_counts :
    (∀ (roles : List (List Role)) (nodes_count : ℕ) (st : SimState),
      (simStep roles nodes_count st).1.iteration = st.iteration + 1) ∧
    (∀ (roles : List (List Role)) (nodes_count : ℕ) (tolerance : ℝ)
        (circuit : Circuit) (t_vir : ℝ) (iv : Option (List ℝ)),
      (simulate_run circuit t_vir tolerance iv).1.iteration ≤ max_iterations ∧
      (simLoop roles nodes_count tolerance max_iterations
          (initState nodes_count iv)).1.iteration ≤ max_iterations) := by
  refine ⟨simStep_iteration, fun roles nodes_count tolerance circuit t_vir iv => ⟨?_, ?_⟩⟩
  · have := simLoop_iteration_le
      (compileRoles circuit.components t_vir circuit.nodes_count)
      circuit.nodes_count tolerance max_iterations
      (initState circuit.nodes_count iv)
    simpa [simulate_run, initState] using this
  · have := simLoop_iteration_le roles nodes_count tolerance max_iterations
      (initState nodes_count iv)
    simpa [initState] using this

/-! ### Support lemmas for the remaining claims -/

lemma simLoop_zero_tol (roles : List (List Role)) (nodes_count : ℕ) :
    ∀ (fuel : ℕ) (st : SimState), st.iteration + fuel = max_iterations →
      (simLoop roles nodes_count 0 fuel st).1.iteration = max_iterations ∧
      (simLoop roles nodes_count 0 fuel st).2 = false := by
  intro fuel
  induction fuel with
  | zero =>
      intro st h
      rw [simLoop_zero]
      exact ⟨by simpa using h, rfl⟩
  | succ fuel ih =>
      intro st h
      have hmdv : ¬ (simStep roles nodes_count st).2 < (0 : ℝ) := by
        rw [simStep_snd]; exact not_lt.mpr (maxDeltaV_nonneg _)
      rw [simLoop_succ, if_neg hmdv]
      have hit : (simStep roles nodes_count st).1.iteration = st.iteration + 1 :=
        simStep_iteration roles nodes_count st
      by_cases hc : max_iterations ≤ (simStep roles nodes_count st).1.iteration
      · rw [if_pos hc]
        rw [hit] at hc
        exact ⟨by rw [hit]; omega, rfl⟩
      · rw [if_neg hc]
        exact ih _ (by omega)

lemma simStep_damper_bounds (roles : List (List Role)) (nodes_count : ℕ) (st : SimState)
    (h0 : 0 < st.damper) (h1 : st.damper ≤ 1) :
    0 < (simStep roles nodes_count st).1.damper ∧
    (simStep roles nodes_count st).1.damper ≤ 1 := by
  rw [simStep]
  split
  · exact ⟨mul_pos h0 (by norm_num), by linarith⟩
  · exact ⟨lt_min (by linarith) one_pos, min_le_right _ _⟩

lemma simLoop_damper_bounds (roles : List (List Role)) (nodes_count : ℕ) (tolerance : ℝ) :
    ∀ (fuel : ℕ) (st : SimState), 0 < st.damper → st.damper ≤ 1 →
      0 < (simLoop roles nodes_count tolerance fuel st).1.damper ∧
      (simLoop roles nodes_count tolerance fuel st).1.damper ≤ 1 := by
  intro fuel
  induction fuel with
  | zero => intro st h0 h1; rw [simLoop_zero]; exact ⟨h0, h1⟩
  | succ fuel ih =>
      intro st h0 h1
      have hstep := simStep_damper_bounds roles nodes_count st h0 h1
      rw [simLoop_succ]
      split
      · exact hstep
      · split
        · exact hstep
        · exact ih _ hstep.1 hstep.2

lemma iterVoltages_length (roles : List (List Role)) (nodes_count : ℕ)
    (damper : ℝ) (voltages : List ℝ) :
    (iterVoltages roles nodes_count damper voltages).length = nodes_count := by
  simp [iterVoltages]

lemma simStep_voltage_lengths (roles : List (List Role)) (nodes_count : ℕ) (st : SimState)
    (h2 : st.prev_voltages.length = nodes_count) :
    (simStep roles nodes_count st).1.voltages.length = nodes_count ∧
    (simStep roles nodes_count st).1.prev_voltages.length = nodes_count := by
  rw [simStep]
  split
  · exact ⟨h2, h2⟩
  · exact ⟨iterVoltages_length roles nodes_count st.damper st.voltages,
      iterVoltages_length roles nodes_count st.damper st.voltages⟩

lemma simLoop_voltage_lengths (roles : List (List Role)) (nodes_count : ℕ) (tolerance : ℝ) :
    ∀ (fuel : ℕ) (st : SimState),
      st.voltages.length = nodes_count → st.prev_voltages.length = nodes_count →
      (simLoop roles nodes_count tolerance fuel st).1.voltages.length = nodes_count := by
  intro fuel
  induction fuel with
  | zero => intro st h1 _; rw [simLoop_zero]; exact h1
  | succ fuel ih =>
      intro st h1 h2
      have hstep := simStep_voltage_lengths roles nodes_count st h2
      rw [simLoop_succ]
      split
      · exact hstep.1
      · split
        · exact hstep.1
        · exact ih _ hstep.1 hstep.2

/-- C4: `simulate_op` terminates on every input.  With `tolerance = 0` the
convergence test `max_delta_v < 0` can never succeed (`max_delta_v` is a
fold of absolute values starting at `0`), so the loop runs exactly
`max_iterations = 10 000` passes and reports non-convergence (flag
`false`), returning normally; and for every tolerance the final iteration
count never exceeds the fixed, non-configurable ceiling of 10 000. -/
theorem terminates_with_iteration_ceiling (circuit : Circuit) (t_vir : ℝ)
    (iv : Option (List ℝ)) :
    ((simulate_run circuit t_vir 0 iv).1.iteration = max_iterations ∧
      (simulate_run circuit t_vir 0 iv).2 = false) ∧
    ∀ tolerance : ℝ,
      (simulate_run circuit t_vir tolerance iv).1.iteration ≤ max_iterations := by
  constructor
  · have := simLoop_zero_tol
      (compileRoles circuit.components t_vir circuit.nodes_count)
      circuit.nodes_count max_iterations (initState circuit.nodes_count iv)
      (by simp [initState])
    exact ⟨this.1, this.2⟩
  · intro tolerance
    have := simLoop_iteration_le
      (compileRoles circuit.components t_vir circuit.nodes_count)
      circuit.nodes_count tolerance max_iterations (initState circuit.nodes_count iv)
    simpa [simulate_run, initState] using this

/-- C5: the damping factor stays in `(0, 1]` throughout every call: it
starts at `1.0`, halving on a rejected pass keeps it strictly positive,
growth on an accepted pass is capped by `min(damper × 1.1, 1.0)`, so every
pass preserves `0 < damper ≤ 1` and the final damper of any run is still
in `(0, 1]`. -/
theorem damper_in_unit_interval :
    (∀ (nodes_count : ℕ) (iv : Option (List ℝ)), (initState nodes_count iv).damper = 1) ∧
    (∀ (roles : List (List Role)) (nodes_count : ℕ) (st : SimState),
      0 < st.damper → st.damper ≤ 1 →
      0 < (simStep roles nodes_count st).1.damper ∧
        (simStep roles nodes_count st).1.damper ≤ 1) ∧
    (∀ (circuit : Circuit) (t_vir tolerance : ℝ) (iv : Option (List ℝ)),
      0 < (simulate_run circuit t_vir tolerance iv).1.damper ∧
        (simulate_run circuit t_vir tolerance iv).1.damper ≤ 1) := by
  refine ⟨fun nodes_count iv => rfl, simStep_damper_bounds, fun circuit t_vir tolerance iv => ?_⟩
  exact simLoop_damper_bounds
    (compileRoles circuit.components t_vir circuit.nodes_count)
    circuit.nodes_count tolerance max_iterations (initState circuit.nodes_count iv)
    (by norm_num [initState]) (by norm_num [initState])

theorem damper_in_unit_interval_witness :
    0 < (initState 0 (none : Option (List ℝ))).damper ∧
    (initState 0 (none : Option (List ℝ))).damper ≤ 1 ∧
    (0 < (simStep [] 0 (initState 0 none)).1.damper ∧
      (simStep [] 0 (initState 0 none)).1.damper ≤ 1) :=
  ⟨by norm_num [initState], by norm_num [initState],
    damper_in_unit_interval.2.1 [] 0 (initState 0 none)
      (by norm_num [initState]) (by norm_num [initState])⟩

/-- C6: a rejected pass (`max_delta_v > prev_error`) discards its whole
effect on the state: the voltages are restored exactly to the last
accepted snapshot `prev_voltages`, the damper is halved, and both
`prev_voltages` and `prev_error` are left unchanged. -/
theorem rejected_step_frame (roles : List (List Role)) (nodes_count : ℕ) (st : SimState)
    (h : errGrew (iterMaxDeltaV roles nodes_count st.damper st.voltages) st.prev_error) :
    (simStep roles nodes_count st).1.voltages = st.prev_voltages ∧
    (simStep roles nodes_count st).1.damper = st.damper * 0.5 ∧
    (simStep roles nodes_count st).1.prev_voltages = st.prev_voltages ∧
    (simStep roles nodes_count st).1.prev_error = st.prev_error := by
  rw [simStep_of_rejected roles nodes_count st h]
  exact ⟨rfl, rfl, rfl, rfl⟩

theorem rejected_step_frame_witness :
    errGrew (iterMaxDeltaV [[Role.Linear 1 1], []] 2 1 [1, 0]) (some 0.5) ∧
    ((simStep [[Role.Linear 1 1], []] 2 ⟨[1, 0], 1, [5, 5], some 0.5, 0⟩).1.voltages = [5, 5] ∧
      (simStep [[Role.Linear 1 1], []] 2 ⟨[1, 0], 1, [5, 5], some 0.5, 0⟩).1.damper = 1 * 0.5 ∧
      (simStep [[Role.Linear 1 1], []] 2 ⟨[1, 0], 1, [5, 5], some 0.5, 0⟩).1.prev_voltages = [5, 5] ∧
      (simStep [[Role.Linear 1 1], []] 2 ⟨[1, 0], 1, [5, 5], some 0.5, 0⟩).1.prev_error = some 0.5) :=
  have h : errGrew (iterMaxDeltaV [[Role.Linear 1 1], []] 2 1 [1, 0]) (some 0.5) := by
    norm_num [errGrew, iterMaxDeltaV, iterDeltas, iterDeltaVs, iterCharges,
      q_vir_impact, delta_v_impact, maxDeltaV, List.range_succ]
  ⟨h, rejected_step_frame [[Role.Linear 1 1], []] 2 ⟨[1, 0], 1, [5, 5], some 0.5, 0⟩ h⟩

/-- C7: the convergence test runs after the damping decision with the
current pass's `max_delta_v`, even on a reverted step: a pass that is
rejected (`max_delta_v > prev_error`, voltages restored) still breaks the
loop successfully whenever `max_delta_v < tolerance`, and the loop then
ends in the restored previous voltages (which the caller receives,
normalized to ground). -/
theorem reverted_step_can_converge (roles : List (List Role)) (nodes_count : ℕ)
    (tolerance : ℝ) (fuel : ℕ) (st : SimState)
    (hrej : errGrew (iterMaxDeltaV roles nodes_count st.damper st.voltages) st.prev_error)
    (hconv : iterMaxDeltaV roles nodes_count st.damper st.voltages < tolerance) :
    simLoop roles nodes_count tolerance (fuel + 1) st =
      ((simStep roles nodes_count st).1, true) ∧
    (simStep roles nodes_count st).1.voltages = st.prev_voltages := by
  constructor
  · rw [simLoop_succ, if_pos (by rw [simStep_snd]; exact hconv)]
  · rw [simStep_of_rejected roles nodes_count st hrej]

theorem reverted_step_can_converge_witness :
    errGrew (iterMaxDeltaV [[Role.Linear 1 1], []] 2 1 [1, 0]) (some 0.5) ∧
    iterMaxDeltaV [[Role.Linear 1 1], []] 2 1 [1, 0] < 2 ∧
    simLoop [[Role.Linear 1 1], []] 2 2 (0 + 1) ⟨[1, 0], 1, [5, 5], some 0.5, 0⟩ =
      ((simStep [[Role.Linear 1 1], []] 2 ⟨[1, 0], 1, [5, 5], some 0.5, 0⟩).1, true) ∧
    (simStep [[Role.Linear 1 1], []] 2 ⟨[1, 0], 1, [5, 5], some 0.5, 0⟩).1.voltages = [5, 5] :=
  have h1 : errGrew (iterMaxDeltaV [[Role.Linear 1 1], []] 2 1 [1, 0]) (some 0.5) := by
    norm_num [errGrew, iterMaxDeltaV, iterDeltas, iterDeltaVs, iterCharges,
      q_vir_impact, delta_v_impact, maxDeltaV, List.range_succ]
  have h2 : iterMaxDeltaV [[Role.Linear 1 1], []] 2 1 [1, 0] < 2 := by
    norm_num [iterMaxDeltaV, iterDeltas, iterDeltaVs, iterCharges,
      q_vir_impact, delta_v_impact, maxDeltaV, List.range_succ]
  ⟨h1, h2,
    (reverted_step_can_converge [[Role.Linear 1 1], []] 2 2 0
      ⟨[1, 0], 1, [5, 5], some 0.5, 0⟩ h1 h2).1,
    (reverted_step_can_converge [[Role.Linear 1 1], []] 2 2 0
      ⟨[1, 0], 1, [5, 5], some 0.5, 0⟩ h1 h2).2⟩

/-- C1: under the preconditions (`ground_node < nodes_count` and, when an
initial guess is supplied, `initial_voltages.length = nodes_count`), the
vector returned by `simulate_op` has length `nodes_count` and reads
exactly `0` at the ground node: the final post-processing subtracts
`voltages[ground_node]` from every entry. -/
theorem ground_entry_is_zero (circuit : Circuit) (t_vir tolerance : ℝ)
    (iv : Option (List ℝ))
    (hg : circuit.ground_node < circuit.nodes_count)
    (hiv : ∀ v, iv = some v → v.length = circuit.nodes_count) :
    (simulate_op circuit t_vir tolerance iv).getD circuit.ground_node 0 = 0 ∧
    (simulate_op circuit t_vir tolerance iv).length = circuit.nodes_count := by
  have hfin : (simulate_run circuit t_vir tolerance iv).1.voltages.length =
      circuit.nodes_count := by
    apply simLoop_voltage_lengths
    · cases iv with
      | none => simp [initState, initVoltages]
      | some v => simp [initState, initVoltages, hiv v rfl]
    · cases iv with
      | none => simp [initState, initVoltages]
      | some v => simp [initState, initVoltages, hiv v rfl]
  have hlen : (simulate_op circuit t_vir tolerance iv).length = circuit.nodes_count := by
    simp [simulate_op, hfin]
  refine ⟨?_, hlen⟩
  have hmap : ∀ (L : List ℝ) (g : ℕ), g < L.length →
      (L.map fun v => v - L.getD g 0).getD g 0 = 0 := by
    intro L g hgl
    have h1 : L.getD g 0 = L[g] := List.getD_eq_getElem L 0 hgl
    rw [h1, List.getD_eq_getElem _ _ (by simpa using hgl), List.getElem_map]
    exact sub_self _
  exact hmap ((simulate_run circuit t_vir tolerance iv).1.voltages)
    circuit.ground_node (by rw [hfin]; exact hg)

theorem ground_entry_is_zero_witness :
    (0 : ℕ) < 1 ∧
    (simulate_op ⟨[], 1, 0⟩ 1 1 none).getD 0 0 = 0 ∧
    (simulate_op ⟨[], 1, 0⟩ 1 1 none).length = 1 :=
  ⟨by norm_num,
    ground_entry_is_zero ⟨[], 1, 0⟩ 1 1 none (by norm_num) (fun v h => by cases h)⟩

/-! ### A concrete circuit refuting the re-solve claim

Two nodes, ground 0, a DC current source (`anode = 1`, `cathode = 0`,
`current = 1`) and a 1 Ω resistor between the nodes; `t_vir = 1.5`,
`tolerance = 2`.  The first solve converges in 5 iterations (after three
rejected passes that shrink the damper to `1/8`) and returns `[0, 2.25]`.
Re-solving from `[0, 2.25]` restarts with `damper = 1`, and its first
(accepted) pass has `max_delta_v = 3.75 ≥ tolerance`, so the re-solve does
not converge within one accepted iteration. -/

noncomputable def cxCircuit : Circuit :=
  ⟨[.CurrentDc 1 0 1, .Resistor 0 1 1], 2, 0⟩

noncomputable def cxRoles : List (List Role) :=
  [[.ConstantCharge (-1.5), .Linear 1.5 1], [.ConstantCharge 1.5, .Linear 1.5 0]]

noncomputable def cxSt1 : SimState := ⟨[-3, 3], 1, [-3, 3], some 3, 1⟩
noncomputable def cxSt2 : SimState := ⟨[-3, 3], 0.5, [-3, 3], some 3, 2⟩
noncomputable def cxSt3 : SimState := ⟨[-3, 3], 0.25, [-3, 3], some 3, 3⟩
noncomputable def cxSt4 : SimState := ⟨[-3, 3], 0.125, [-3, 3], some 3, 4⟩
noncomputable def cxSt5 : SimState :=
  ⟨[-1.125, 1.125], 0.1375, [-1.125, 1.125], some 1.875, 5⟩
noncomputable def cxSt1' : SimState := ⟨[3.75, -1.5], 1, [3.75, -1.5], some 3.75, 1⟩

lemma cxRoles_eq :
    compileRoles [Component.CurrentDc 1 0 1, Component.Resistor 0 1 1] 1.5 2 = cxRoles := by
  simp [compileRoles, compileComponent, addRole, cxRoles]

lemma cx_init : initState 2 (none : Option (List ℝ)) = ⟨[0, 0], 1, [0, 0], none, 0⟩ := by
  simp [initState, initVoltages, List.replicate]

lemma cx_init2 :
    initState 2 (some [(0 : ℝ), 2.25]) = ⟨[0, 2.25], 1, [0, 2.25], none, 0⟩ := by
  simp [initState, initVoltages]

lemma cx_mdv (d : ℝ) (v0 v1 : ℝ) :
    iterMaxDeltaV cxRoles 2 d [v0, v1] =
      max (max 0 |d * ((-1.5 + 1.5 * (v1 - v0)) - (1.5 + 1.5 * (v0 - v1)))|)
        |d * ((1.5 + 1.5 * (v0 - v1)) - (-1.5 + 1.5 * (v1 - v0)))| := by
  simp [cxRoles, iterMaxDeltaV, iterDeltas, iterDeltaVs, iterCharges,
    q_vir_impact, delta_v_impact, maxDeltaV, List.range_succ]

lemma cx_volt (d : ℝ) (v0 v1 : ℝ) :
    iterVoltages cxRoles 2 d [v0, v1] =
      [v0 + d * ((-1.5 + 1.5 * (v1 - v0)) - (1.5 + 1.5 * (v0 - v1))),
        v1 + d * ((1.5 + 1.5 * (v0 - v1)) - (-1.5 + 1.5 * (v1 - v0)))] := by
  simp [cxRoles, iterVoltages, iterDeltas, iterDeltaVs, iterCharges,
    q_vir_impact, delta_v_impact, maxDeltaV, List.range_succ]

lemma cx_step0 : simStep cxRoles 2 ⟨[0, 0], 1, [0, 0], none, 0⟩ = (cxSt1, 3) := by
  have hmdv : iterMaxDeltaV cxRoles 2 (1 : ℝ) [0, 0] = 3 := by
    rw [cx_mdv]; norm_num
  rw [simStep_of_accepted cxRoles 2 ⟨[0, 0], 1, [0, 0], none, 0⟩ (by simp [errGrew])]
  rw [show (⟨[0, 0], 1, [0, 0], none, 0⟩ : SimState).damper = (1 : ℝ) from rfl,
    show (⟨[0, 0], 1, [0, 0], none, 0⟩ : SimState).voltages = [(0 : ℝ), 0] from rfl,
    hmdv, cx_volt]
  norm_num [cxSt1, min_def]

lemma cx_step1 : simStep cxRoles 2 cxSt1 = (cxSt2, 15) := by
  have hmdv : iterMaxDeltaV cxRoles 2 cxSt1.damper cxSt1.voltages = 15 := by
    rw [show cxSt1.damper = (1 : ℝ) from rfl,
      show cxSt1.voltages = [(-3 : ℝ), 3] from rfl, cx_mdv]
    norm_num
  rw [simStep_of_rejected cxRoles 2 cxSt1 (by rw [hmdv]; norm_num [cxSt1, errGrew]), hmdv]
  norm_num [cxSt1, cxSt2]

lemma cx_step2 : simStep cxRoles 2 cxSt2 = (cxSt3, 7.5) := by
  have hmdv : iterMaxDeltaV cxRoles 2 cxSt2.damper cxSt2.voltages = 7.5 := by
    rw [show cxSt2.damper = (0.5 : ℝ) from rfl,
      show cxSt2.voltages = [(-3 : ℝ), 3] from rfl, cx_mdv]
    norm_num
  rw [simStep_of_rejected cxRoles 2 cxSt2 (by rw [hmdv]; norm_num [cxSt2, errGrew]), hmdv]
  norm_num [cxSt2, cxSt3]

lemma cx_step3 : simStep cxRoles 2 cxSt3 = (cxSt4, 3.75) := by
  have hmdv : iterMaxDeltaV cxRoles 2 cxSt3.damper cxSt3.voltages = 3.75 := by
    rw [show cxSt3.damper = (0.25 : ℝ) from rfl,
      show cxSt3.voltages = [(-3 : ℝ), 3] from rfl, cx_mdv]
    norm_num
  rw [simStep_of_rejected cxRoles 2 cxSt3 (by rw [hmdv]; norm_num [cxSt3, errGrew]), hmdv]
  norm_num [cxSt3, cxSt4]

lemma cx_step4 : simStep cxRoles 2 cxSt4 = (cxSt5, 1.875) := by
  have hmdv : iterMaxDeltaV cxRoles 2 (0.125 : ℝ) [-3, 3] = 1.875 := by
    rw [cx_mdv]; norm_num
  have hng : ¬ errGrew (iterMaxDeltaV cxRoles 2 cxSt4.damper cxSt4.voltages)
      cxSt4.prev_error := by
    show ¬ errGrew (iterMaxDeltaV cxRoles 2 (0.125 : ℝ) [-3, 3]) (some 3)
    rw [hmdv]; norm_num [errGrew]
  rw [simStep_of_accepted cxRoles 2 cxSt4 hng,
    show cxSt4.damper = (0.125 : ℝ) from rfl,
    show cxSt4.voltages = [(-3 : ℝ), 3] from rfl, hmdv, cx_volt]
  norm_num [cxSt4, cxSt5, min_def]

lemma cx2_step0 :
    simStep cxRoles 2 ⟨[0, 2.25], 1, [0, 2.25], none, 0⟩ = (cxSt1', 3.75) := by
  have hmdv : iterMaxDeltaV cxRoles 2 (1 : ℝ) [0, 2.25] = 3.75 := by
    rw [cx_mdv]; norm_num
  rw [simStep_of_accepted cxRoles 2 ⟨[0, 2.25], 1, [0, 2.25], none, 0⟩ (by simp [errGrew])]
  rw [show (⟨[0, 2.25], 1, [0, 2.25], none, 0⟩ : SimState).damper = (1 : ℝ) from rfl,
    show (⟨[0, 2.25], 1, [0, 2.25], none, 0⟩ : SimState).voltages = [(0 : ℝ), 2.25] from rfl,
    hmdv, cx_volt]
  norm_num [cxSt1', min_def]

lemma cx_run1 : simulate_run cxCircuit 1.5 2 none = (cxSt5, true) := by
  have e : simulate_run cxCircuit 1.5 2 none =
      simLoop cxRoles 2 2 max_iterations ⟨[0, 0], 1, [0, 0], none, 0⟩ := by
    rw [simulate_run,
      show cxCircuit.components = [Component.CurrentDc 1 0 1, Component.Resistor 0 1 1]
        from rfl,
      show cxCircuit.nodes_count = 2 from rfl, cxRoles_eq, cx_init]
  rw [e, show max_iterations = 9999 + 1 from rfl, simLoop_succ, cx_step0,
    if_neg (by norm_num), if_neg (by norm_num [cxSt1, max_iterations])]
  show simLoop cxRoles 2 2 9999 cxSt1 = (cxSt5, true)
  rw [show (9999 : ℕ) = 9998 + 1 from rfl, simLoop_succ, cx_step1,
    if_neg (by norm_num), if_neg (by norm_num [cxSt2, max_iterations])]
  show simLoop cxRoles 2 2 9998 cxSt2 = (cxSt5, true)
  rw [show (9998 : ℕ) = 9997 + 1 from rfl, simLoop_succ, cx_step2,
    if_neg (by norm_num), if_neg (by norm_num [cxSt3, max_iterations])]
  show simLoop cxRoles 2 2 9997 cxSt3 = (cxSt5, true)
  rw [show (9997 : ℕ) = 9996 + 1 from rfl, simLoop_succ, cx_step3,
    if_neg (by norm_num), if_neg (by norm_num [cxSt4, max_iterations])]
  show simLoop cxRoles 2 2 9996 cxSt4 = (cxSt5, true)
  rw [show (9996 : ℕ) = 9995 + 1 from rfl, simLoop_succ, cx_step4,
    if_pos (by norm_num)]

lemma cx_run2_iteration :
    2 ≤ (simulate_run cxCircuit 1.5 2 (some [0, 2.25])).1.iteration := by
  have e : simulate_run cxCircuit 1.5 2 (some [0, 2.25]) =
      simLoop cxRoles 2 2 max_iterations ⟨[0, 2.25], 1, [0, 2.25], none, 0⟩ := by
    rw [simulate_run,
      show cxCircuit.components = [Component.CurrentDc 1 0 1, Component.Resistor 0 1 1]
        from rfl,
      show cxCircuit.nodes_count = 2 from rfl, cxRoles_eq, cx_init2]
  rw [e, show max_iterations = 9999 + 1 from rfl, simLoop_succ, cx2_step0,
    if_neg (by norm_num), if_neg (by norm_num [cxSt1', max_iterations])]
  have h := simLoop_iteration_ge_one cxRoles 2 2 9999 cxSt1' (by norm_num)
  simpa [cxSt1'] using h

/-- C9 counterexample: on `cxCircuit` (2 nodes, ground 0, a 1 A current
source into node 1 and a 1 Ω resistor; `t_vir = 1.5`, `tolerance = 2`),
the first call converges (flag `true`, 5 iterations) and returns
`[0, 2.25]`; re-solving with `[0, 2.25]` as `initial_voltages` has its
first pass accepted (its `prev_error` snapshot becomes `some 3.75`) with
`max_delta_v = 3.75` not below tolerance, and the re-solve's loop runs at
least 2 iterations — so the re-solve does not converge within 1 further
accepted iteration, refuting the claim. -/
theorem resolve_counterexample :
    (simulate_run cxCircuit 1.5 2 none).2 = true ∧
    (simulate_run cxCircuit 1.5 2 none).1.iteration = 5 ∧
    simulate_op cxCircuit 1.5 2 none = [0, 2.25] ∧
    (simStep cxRoles 2 (initState 2 (some [0, 2.25]))).1.prev_error = some 3.75 ∧
    ¬ ((simStep cxRoles 2 (initState 2 (some [0, 2.25]))).2 < 2) ∧
    2 ≤ (simulate_run cxCircuit 1.5 2 (some [0, 2.25])).1.iteration := by
  refine ⟨?_, ?_, ?_, ?_, ?_, cx_run2_iteration⟩
  · rw [cx_run1]
  · rw [cx_run1]; rfl
  · simp only [simulate_op]
    rw [cx_run1, show cxCircuit.ground_node = 0 from rfl]
    norm_num [cxSt5]
  · rw [cx_init2, cx2_step0]; rfl
  · rw [cx_init2, cx2_step0]; norm_num

/-- C9 amended: a re-solve (indeed any solve started from a supplied
initial guess) restarts with `damper = 1` and `prev_error = ∞`, so its
first pass is always accepted; it converges in exactly 1 iteration —
ending in the state of that single accepted pass — precisely when that
first pass's `max_delta_v` is below the tolerance.  Without that premise
the re-solve may need several accepted iterations
(`resolve_counterexample`), so convergence of the first call does not by
itself bound the re-solve by one accepted iteration. -/
theorem resolve_single_iteration_iff_first_pass_small (roles : List (List Role))
    (nodes_count : ℕ) (tolerance : ℝ) (v₀ : List ℝ) (fuel : ℕ)
    (h : iterMaxDeltaV roles nodes_count 1 v₀ < tolerance) :
    simLoop roles nodes_count tolerance (fuel + 1) (initState nodes_count (some v₀)) =
      ((simStep roles nodes_count (initState nodes_count (some v₀))).1, true) ∧
    (simStep roles nodes_count (initState nodes_count (some v₀))).1.iteration = 1 ∧
    (simStep roles nodes_count (initState nodes_count (some v₀))).1.prev_error =
      some (iterMaxDeltaV roles nodes_count 1 v₀) := by
  have hst : initState nodes_count (some v₀) = ⟨v₀, 1, v₀, none, 0⟩ := by
    simp [initState, initVoltages]
  have hacc := simStep_of_accepted roles nodes_count (initState nodes_count (some v₀))
    (by rw [hst]; simp [errGrew])
  refine ⟨?_, ?_, ?_⟩
  · rw [simLoop_succ, if_pos (by rw [simStep_snd, hst]; exact h)]
  · rw [simStep_iteration, hst]
  · rw [hacc, hst]

theorem resolve_single_iteration_witness :
    iterMaxDeltaV [] 0 1 [] < 1 ∧
    simLoop [] 0 1 (0 + 1) (initState 0 (some [])) =
      ((simStep [] 0 (initState 0 (some []))).1, true) ∧
    (simStep [] 0 (initState 0 (some []))).1.iteration = 1 :=
  have h : iterMaxDeltaV [] 0 1 [] < 1 := by
    norm_num [iterMaxDeltaV, iterDeltas, iterDeltaVs, iterCharges, maxDeltaV]
  ⟨h, (resolve_single_iteration_iff_first_pass_small [] 0 1 [] 0 h).1,
    (resolve_single_iteration_iff_first_pass_small [] 0 1 [] 0 h).2.1⟩

end VCIDSpice
